import Mathlib

/-!
Verification of the webp-convertor backend (`src/index.js`) against its
specification.  The single request handler `app.post("/upload")` is embedded
shallowly: JavaScript numbers that can be `null` or `NaN` are modelled by the
inductive type `JVal`, `parseInt` by `parseIntJS`, query-string parameters by
`Option String`, and the per-file sharp pipeline by an explicit list of
`SharpCall` records (the resize arguments and the webp quality actually passed
to the library).  `Math.round` is `round` on `ℚ` (both are `⌊x + 1/2⌋`).
-/

namespace WebpConv

/-- A JavaScript value appearing in the handler's numeric variables:
`null`, `NaN`, or an integer (all `parseInt` results on integer-looking
strings are integers). -/
inductive JVal where
  | null : JVal
  | nan : JVal
  | int (n : ℤ) : JVal
deriving DecidableEq, Repr

/-- JavaScript truthiness of a `JVal`: `null`, `NaN` and `0` are falsy,
every other number is truthy. -/
def truthy : JVal → Bool
  | .null => false
  | .nan => false
  | .int n => n ≠ 0

/-- Numeric coercion of a `JVal` to `ℚ` (used for arithmetic on values the
handler has already checked to be truthy; `null` coerces to 0 as in JS,
`NaN` arithmetic never reaches a comparison the embedding depends on). -/
def toQ : JVal → ℚ
  | .null => 0
  | .nan => 0
  | .int n => (n : ℚ)

/-- JavaScript `v < m` for a numeric variable `v` against an integer literal:
comparisons with `NaN` are false, `null` coerces to 0. -/
def jsLt : JVal → ℤ → Bool
  | .null, m => decide ((0 : ℤ) < m)
  | .nan, _ => false
  | .int n, m => decide (n < m)

/-- JavaScript `v > m` for a numeric variable against an integer literal. -/
def jsGt : JVal → ℤ → Bool
  | .null, m => decide (m < (0 : ℤ))
  | .nan, _ => false
  | .int n, m => decide (m < n)

/-- JavaScript `isNaN(v)` for the values the handler can hold. -/
def isNaNJ : JVal → Bool
  | .nan => true
  | _ => false

/-- Leading decimal digits of a character list (what `parseInt` consumes
after the optional sign). -/
def leadingDigits : List Char → List Char
  | [] => []
  | c :: cs => if c.isDigit then c :: leadingDigits cs else []

/-- Numeric value of a digit list. -/
def digitsVal (cs : List Char) : ℤ :=
  cs.foldl (fun a c => 10 * a + ((c.toNat : ℤ) - 48)) 0

/-- `parseInt` on a decimal string: an optional sign followed by a digit
prefix; `NaN` when no leading digit exists. -/
def parseIntJS (s : String) : JVal :=
  let cs := s.data
  match cs with
  | '-' :: rest =>
      let ds := leadingDigits rest
      if ds = [] then .nan else .int (-(digitsVal ds))
  | '+' :: rest =>
      let ds := leadingDigits rest
      if ds = [] then .nan else .int (digitsVal ds)
  | _ =>
      let ds := leadingDigits cs
      if ds = [] then .nan else .int (digitsVal ds)

/-- Line 53/54: `req.query.width ? parseInt(req.query.width) : null`.
A missing or empty query parameter (both falsy) gives `null`. -/
def dimVal : Option String → JVal
  | none => .null
  | some s => if s = "" then .null else parseIntJS s

/-- Line 55: `req.query.quality ? parseInt(req.query.quality) : 80`. -/
def qualVal : Option String → JVal
  | none => .int 80
  | some s => if s = "" then .int 80 else parseIntJS s

/-- One uploaded source file, as the handler sees it: the intrinsic
dimensions sharp reads from it, the generated output filename, and an
abstract flag recording whether any sharp step on this file throws. -/
structure SrcFile where
  ow : ℤ
  oh : ℤ
  outName : String
  fails : Bool
deriving DecidableEq, Repr

/-- The query parameters of a request, as raw strings (absent = `none`). -/
structure QueryParams where
  width : Option String
  height : Option String
  quality : Option String
  maintainAspectRatio : Option String
deriving DecidableEq, Repr

/-- A request reaching the handler: query parameters plus the file list the
multipart middleware produced. -/
structure Request where
  query : QueryParams
  files : List SrcFile
deriving DecidableEq, Repr

/-- A response body: a list of urls or a JSON error message. -/
inductive Body where
  | urls (us : List String) : Body
  | error (msg : String) : Body
deriving DecidableEq, Repr

/-- An HTTP response: status code and JSON body. -/
structure Response where
  status : ℕ
  body : Body
deriving DecidableEq, Repr

/-- One invocation of the sharp pipeline for one file: the resize arguments
(`none` when `image.resize` is never called, otherwise the pair passed, with
`targetWidth || null` / `targetHeight || null` as `Option ℤ`), and the
quality value handed to `.webp({ quality })`. -/
structure SharpCall where
  resize : Option (Option ℤ × Option ℤ)
  quality : JVal
deriving DecidableEq, Repr

/-- Lines 59–65: the validation condition
`(width && (width < 1 || width > 5000))` for one dimension. -/
def badDim (v : JVal) : Bool :=
  truthy v && (jsLt v 1 || jsGt v 5000)

/-- Lines 59–65: the full validation disjunction over width, height and
quality. -/
def invalidParams (w h q : JVal) : Bool :=
  badDim w || badDim h || isNaNJ q || jsLt q 1 || jsGt q 100

/-- Lines 94–112: compute `(targetWidth, targetHeight)` from the parsed
`width`/`height`, the `maintainAspectRatio` flag and the file's intrinsic
dimensions.  `aspectRatio = originalWidth / originalHeight` in exact
arithmetic; `Math.round` is `round : ℚ → ℤ`. -/
def computePlan (w h : JVal) (mar : Bool) (ow oh : ℤ) : JVal × JVal :=
  if mar then
    let ar : ℚ := (ow : ℚ) / (oh : ℚ)
    if truthy w && truthy h then
      if toQ w / toQ h > ar then
        (.int (round (toQ h * ar)), h)
      else
        (w, .int (round (toQ w / ar)))
    else if truthy w then
      (w, .int (round (toQ w / ar)))
    else if truthy h then
      (.int (round (toQ h * ar)), h)
    else
      (w, h)
  else
    (w, h)

/-- Line 115: `targetWidth || null` — a falsy target dimension is passed to
`resize` as `null`. -/
def resizeArg : JVal → Option ℤ
  | .int n => if n ≠ 0 then some n else none
  | _ => none

/-- Lines 114–116: the resize call actually issued, `none` when both target
dimensions are falsy and `image.resize` is skipped. -/
def appliedResize (tW tH : JVal) : Option (Option ℤ × Option ℤ) :=
  if truthy tW || truthy tH then some (resizeArg tW, resizeArg tH) else none

/-- `appliedResize` on a computed plan pair. -/
def appliedResizeOfPlan (p : JVal × JVal) : Option (Option ℤ × Option ℤ) :=
  appliedResize p.1 p.2

/-- Line 121: the public-url prefix prepended to every output filename. -/
def baseURL : String := "https://webp-convertor-backend.onrender.com/images/"

/-- Line 120–122: the url recorded for one converted file. -/
def urlOf (f : SrcFile) : String := baseURL ++ f.outName

/-- Lines 88–122 for one non-throwing file: the url pushed and the sharp
pipeline invocation made. -/
def convertFile (w h : JVal) (mar : Bool) (q : JVal) (f : SrcFile) :
    String × SharpCall :=
  (urlOf f,
   { resize := appliedResizeOfPlan (computePlan w h mar f.ow f.oh)
     quality := q })

/-- Lines 81–123: the `for (const file of req.files)` loop.  The first file
whose processing throws aborts the loop (`Except.error`, carrying the sharp
calls already completed); otherwise all urls accumulate in input order. -/
def processBatch (w h : JVal) (mar : Bool) (q : JVal) :
    List SrcFile → Except (List SharpCall) (List (String × SharpCall))
  | [] => .ok []
  | f :: fs =>
      if f.fails then .error []
      else
        let r := convertFile w h mar q f
        match processBatch w h mar q fs with
        | .ok rs => .ok (r :: rs)
        | .error cs => .error (r.2 :: cs)

/-- Lines 51–130 given the already-parsed parameter values: validation,
file-count checks, the conversion loop, and the try/catch translating any
per-file exception into a 500.  Returns the response together with the trace
of sharp invocations performed. -/
def handlerCore (w h q : JVal) (mar : Bool) (files : List SrcFile) :
    Response × List SharpCall :=
  if invalidParams w h q then
    (⟨400, .error "Invalid width, height, or quality"⟩, [])
  else if files.isEmpty then
    (⟨400, .error "No images provided"⟩, [])
  else if files.length > 20 then
    (⟨400, .error "Maximum 20 images allowed"⟩, [])
  else
    match processBatch w h mar q files with
    | .ok rs => (⟨200, .urls (rs.map Prod.fst)⟩, rs.map Prod.snd)
    | .error cs => (⟨500, .error "Image conversion failed"⟩, cs)

/-- The full `/upload` handler on a request: parse the query parameters as
lines 53–56 do (`maintainAspectRatio` is true exactly on the string
`"true"`), then run the body. -/
def handler (req : Request) : Response × List SharpCall :=
  handlerCore (dimVal req.query.width) (dimVal req.query.height)
    (qualVal req.query.quality)
    (req.query.maintainAspectRatio = some "true") req.files

/-- Lines 114–118 abstracted over the external library: the dimensions of
the produced output, parametrised by an arbitrary semantics `sem` for
sharp's `resize`.  When no resize call is issued the webp re-encode keeps
the source dimensions. -/
def finalDims (sem : Option ℤ × Option ℤ → ℤ × ℤ → ℤ × ℤ)
    (tW tH : JVal) (src : ℤ × ℤ) : ℤ × ℤ :=
  match appliedResize tW tH with
  | none => src
  | some args => sem args src

/-! ## Helper lemmas -/

/-- When every file in the batch converts cleanly, the loop returns every
url/sharp-call pair in input order. -/
theorem processBatch_ok (w h : JVal) (mar : Bool) (q : JVal) :
    ∀ files : List SrcFile, (∀ f ∈ files, f.fails = false) →
      processBatch w h mar q files = .ok (files.map (convertFile w h mar q))
  | [], _ => rfl
  | f :: fs, hok => by
      have hf : f.fails = false := hok f (List.mem_cons_self f fs)
      have ih := processBatch_ok w h mar q fs (fun g hg => hok g (List.mem_cons_of_mem f hg))
      simp [processBatch, hf, ih]

/-- When some file in the batch throws, the loop aborts with an error. -/
theorem processBatch_err (w h : JVal) (mar : Bool) (q : JVal) :
    ∀ files : List SrcFile, (∃ f ∈ files, f.fails = true) →
      ∃ cs, processBatch w h mar q files = .error cs
  | [], hex => absurd hex (by simp)
  | f :: fs, hex => by
      by_cases hf : f.fails = true
      · exact ⟨[], by simp [processBatch, hf]⟩
      · have hf' : f.fails = false := by simpa using hf
        obtain ⟨g, hg, hgf⟩ := hex
        rcases List.mem_cons.mp hg with rfl | hg'
        · exact absurd hgf hf
        · obtain ⟨cs, hcs⟩ := processBatch_err w h mar q fs ⟨g, hg', hgf⟩
          exact ⟨(convertFile w h mar q f).2 :: cs, by simp [processBatch, hf', hcs]⟩

/-- Every sharp call recorded by the handler body carries the handler's
`quality` value. -/
theorem processBatch_quality (w h : JVal) (mar : Bool) (q : JVal) :
    ∀ files : List SrcFile,
      (∀ rs, processBatch w h mar q files = .ok rs → ∀ r ∈ rs, r.2.quality = q) ∧
      (∀ cs, processBatch w h mar q files = .error cs → ∀ c ∈ cs, c.quality = q)
  | [] => by
      constructor <;> intro xs hxs
      · simp only [processBatch] at hxs
        cases hxs
        simp
      · simp [processBatch] at hxs
  | f :: fs => by
      have ih := processBatch_quality w h mar q fs
      constructor
      · intro rs hrs r hr
        by_cases hf : f.fails = true
        · simp [processBatch, hf] at hrs
        · simp only [processBatch, hf, if_false, Bool.false_eq_true] at hrs
          cases hpb : processBatch w h mar q fs with
          | ok rs' =>
              rw [hpb] at hrs
              cases hrs
              rcases List.mem_cons.mp hr with rfl | hr'
              · rfl
              · exact ih.1 rs' hpb r hr'
          | error cs' => rw [hpb] at hrs; cases hrs
      · intro cs hcs c hc
        by_cases hf : f.fails = true
        · simp [processBatch, hf] at hcs
          subst hcs
          simp at hc
        · simp only [processBatch, hf, if_false, Bool.false_eq_true] at hcs
          cases hpb : processBatch w h mar q fs with
          | ok rs' => rw [hpb] at hcs; cases hcs
          | error cs' =>
              rw [hpb] at hcs
              cases hcs
              rcases List.mem_cons.mp hc with rfl | hc'
              · rfl
              · exact ih.2 cs' hpb c hc'

/-- A falsy target dimension is passed to `resize` as `null`. -/
theorem resizeArg_falsy {v : JVal} (hv : truthy v = false) : resizeArg v = none := by
  cases v with
  | null => rfl
  | nan => rfl
  | int n =>
      simp [truthy] at hv
      simp [resizeArg, hv]

/-- A falsy `width` value (`null`, `NaN`, or `0`) yields the same resize
call as an absent one, for any height, flag and source dimensions. -/
theorem plan_falsy_width {v : JVal} (hv : truthy v = false) (h : JVal)
    (mar : Bool) (ow oh : ℤ) :
    appliedResizeOfPlan (computePlan v h mar ow oh) =
      appliedResizeOfPlan (computePlan .null h mar ow oh) := by
  have hnull : truthy JVal.null = false := rfl
  have hrn : resizeArg JVal.null = none := rfl
  have hbase : appliedResize v h = appliedResize JVal.null h := by
    simp [appliedResize, hv, hnull, resizeArg_falsy hv, hrn]
  cases mar with
  | false => simpa [computePlan, appliedResizeOfPlan] using hbase
  | true =>
      by_cases hh : truthy h = true
      · simp [computePlan, hv, hh, hnull, appliedResizeOfPlan]
      · have hh' : truthy h = false := by simpa using hh
        simpa [computePlan, hv, hh', hnull, appliedResizeOfPlan] using hbase

/-- A falsy `height` value yields the same resize call as an absent one. -/
theorem plan_falsy_height (w : JVal) {v : JVal} (hv : truthy v = false)
    (mar : Bool) (ow oh : ℤ) :
    appliedResizeOfPlan (computePlan w v mar ow oh) =
      appliedResizeOfPlan (computePlan w .null mar ow oh) := by
  have hnull : truthy JVal.null = false := rfl
  have hrn : resizeArg JVal.null = none := rfl
  have hbase : appliedResize w v = appliedResize w JVal.null := by
    simp [appliedResize, hv, hnull, resizeArg_falsy hv, hrn]
  cases mar with
  | false => simpa [computePlan, appliedResizeOfPlan] using hbase
  | true =>
      by_cases hw : truthy w = true
      · simp [computePlan, hv, hw, hnull, appliedResizeOfPlan]
      · have hw' : truthy w = false := by simpa using hw
        simpa [computePlan, hv, hw', hnull, appliedResizeOfPlan] using hbase

/-- `badDim` only looks at a value through its truthiness when falsy. -/
theorem badDim_falsy {v : JVal} (hv : truthy v = false) : badDim v = false := by
  simp [badDim, hv]

/-- The full handler body treats a falsy `width` exactly like an absent
one. -/
theorem handlerCore_falsy_width {v : JVal} (hv : truthy v = false)
    (h q : JVal) (mar : Bool) (files : List SrcFile) :
    handlerCore v h q mar files = handlerCore .null h q mar files := by
  have hconv : ∀ f, convertFile v h mar q f = convertFile .null h mar q f := by
    intro f
    simp [convertFile, plan_falsy_width hv]
  have hpb : ∀ fs : List SrcFile,
      processBatch v h mar q fs = processBatch .null h mar q fs := by
    intro fs
    induction fs with
    | nil => rfl
    | cons f fs ih => simp [processBatch, hconv, ih]
  have hbd0 : badDim JVal.null = false := rfl
  simp [handlerCore, invalidParams, badDim_falsy hv, hbd0, hpb]

/-- The full handler body treats a falsy `height` exactly like an absent
one. -/
theorem handlerCore_falsy_height (w : JVal) {v : JVal} (hv : truthy v = false)
    (q : JVal) (mar : Bool) (files : List SrcFile) :
    handlerCore w v q mar files = handlerCore w .null q mar files := by
  have hconv : ∀ f, convertFile w v mar q f = convertFile w .null mar q f := by
    intro f
    simp [convertFile, plan_falsy_height w hv]
  have hpb : ∀ fs : List SrcFile,
      processBatch w v mar q fs = processBatch w .null mar q fs := by
    intro fs
    induction fs with
    | nil => rfl
    | cons f fs ih => simp [processBatch, hconv, ih]
  have hbd0 : badDim JVal.null = false := rfl
  simp [handlerCore, invalidParams, badDim_falsy hv, hbd0, hpb]

/-! ## Claims -/

/-- C1 (counterexample): a width parameter that parses to a non-numeric
value (`"abc"` → `NaN`) does NOT cause a 400 — the truthiness guard
`width && ...` on line 60 skips the range check for `NaN`, the request is
accepted with status 200 and the image IS processed (one sharp call). -/
theorem c1_counterexample :
    (handler ⟨⟨some "abc", none, none, none⟩, [⟨100, 50, "a.webp", false⟩]⟩).1.status = 200 ∧
    (handler ⟨⟨some "abc", none, none, none⟩, [⟨100, 50, "a.webp", false⟩]⟩).2 ≠ [] := by
  constructor
  · rfl
  · decide

/-- C1 (amended): the handler fails with 400 `Invalid width, height, or
quality` and performs no sharp call exactly when width or height parses to
a NONZERO integer outside [1,5000], or quality parses to `NaN` or to an
integer outside [1,100]; non-numeric or zero width/height values are falsy
and are treated as absent instead of being rejected. -/
theorem c1_amended (req : Request)
    (hbad :
      (∃ n : ℤ, dimVal req.query.width = .int n ∧ n ≠ 0 ∧ (n < 1 ∨ 5000 < n)) ∨
      (∃ n : ℤ, dimVal req.query.height = .int n ∧ n ≠ 0 ∧ (n < 1 ∨ 5000 < n)) ∨
      qualVal req.query.quality = .nan ∨
      (∃ n : ℤ, qualVal req.query.quality = .int n ∧ (n < 1 ∨ 100 < n))) :
    handler req = (⟨400, .error "Invalid width, height, or quality"⟩, []) := by
  have hinv : invalidParams (dimVal req.query.width) (dimVal req.query.height)
      (qualVal req.query.quality) = true := by
    rcases hbad with ⟨n, hn, h0, hr⟩ | ⟨n, hn, h0, hr⟩ | hq | ⟨n, hn, hr⟩
    · rcases hr with hr | hr <;> simp [invalidParams, badDim, hn, truthy, jsLt, jsGt, h0, hr]
    · rcases hr with hr | hr <;> simp [invalidParams, badDim, hn, truthy, jsLt, jsGt, h0, hr]
    · simp [invalidParams, hq, isNaNJ]
    · rcases hr with hr | hr <;> simp [invalidParams, hn, jsLt, jsGt, hr, Int.not_lt.mpr hr.le]
  simp [handler, handlerCore, hinv]

/-- C1 (witness for the amended claim): `quality=101` is an integer outside
[1,100] and the request is rejected with no processing. -/
theorem c1_amended_witness :
    (qualVal (some "101") = JVal.int 101 ∧ ((101 : ℤ) < 1 ∨ (100 : ℤ) < 101)) ∧
    handler ⟨⟨none, none, some "101", none⟩, [⟨10, 10, "x.webp", false⟩]⟩ =
      (⟨400, .error "Invalid width, height, or quality"⟩, []) :=
  ⟨⟨by decide, Or.inr (by decide)⟩,
   c1_amended _ (Or.inr (Or.inr (Or.inr ⟨101, by decide, Or.inr (by decide)⟩)))⟩

/-- C2: once a request reaches the handler with valid parameters, a
21-entry file list is answered with 400 `Maximum 20 images allowed`
(line 75) and an empty file list with 400 `No images provided` (line 71),
in both cases before any processing. -/
theorem c2_file_count (req : Request)
    (hvalid : invalidParams (dimVal req.query.width) (dimVal req.query.height)
      (qualVal req.query.quality) = false) :
    (req.files.length = 21 →
      handler req = (⟨400, .error "Maximum 20 images allowed"⟩, [])) ∧
    (req.files = [] →
      handler req = (⟨400, .error "No images provided"⟩, [])) := by
  constructor
  · intro h21
    have hne : req.files ≠ [] := by
      intro h
      rw [h] at h21
      simp at h21
    simp [handler, handlerCore, hvalid, List.isEmpty_iff, hne, h21]
  · intro hemp
    simp [handler, handlerCore, hvalid, List.isEmpty_iff, hemp]

/-- C2 (witness): a concrete 21-file upload and a concrete 0-file upload
with default parameters. -/
theorem c2_witness :
    handler ⟨⟨none, none, none, none⟩, List.replicate 21 ⟨1, 1, "f.webp", false⟩⟩ =
      (⟨400, .error "Maximum 20 images allowed"⟩, []) ∧
    handler ⟨⟨none, none, none, none⟩, []⟩ =
      (⟨400, .error "No images provided"⟩, []) :=
  ⟨(c2_file_count _ (by decide)).1 (by decide),
   (c2_file_count _ (by decide)).2 rfl⟩

/-- C5: `quality=0` and `quality=101` are rejected with 400 (the quality
range check on lines 62–64 has no truthiness guard, so 0 is caught), and
when the quality parameter is absent every sharp `.webp({ quality })` call
in the request uses the default 80 from line 55. -/
theorem c5_quality (req : Request) :
    (req.query.quality = some "0" →
      (handler req).1 = ⟨400, .error "Invalid width, height, or quality"⟩) ∧
    (req.query.quality = some "101" →
      (handler req).1 = ⟨400, .error "Invalid width, height, or quality"⟩) ∧
    (req.query.quality = none →
      ∀ c ∈ (handler req).2, c.quality = .int 80) := by
  refine ⟨?_, ?_, ?_⟩
  · intro hq
    have h1 : qualVal req.query.quality = .int 0 := by rw [hq]; rfl
    have hinv : invalidParams (dimVal req.query.width) (dimVal req.query.height)
        (qualVal req.query.quality) = true := by
      simp [invalidParams, h1, jsLt]
    simp [handler, handlerCore, hinv]
  · intro hq
    have h1 : qualVal req.query.quality = .int 101 := by rw [hq]; rfl
    have hinv : invalidParams (dimVal req.query.width) (dimVal req.query.height)
        (qualVal req.query.quality) = true := by
      simp [invalidParams, h1, jsLt, jsGt]
    simp [handler, handlerCore, hinv]
  · intro hq c hc
    have h80 : qualVal req.query.quality = .int 80 := by rw [hq]; rfl
    rw [handler, h80] at hc
    revert hc
    have hq80 := processBatch_quality (dimVal req.query.width) (dimVal req.query.height)
      (req.query.maintainAspectRatio = some "true") (JVal.int 80) req.files
    rw [handlerCore]
    split
    · intro hc
      simp at hc
    · split
      · intro hc
        simp at hc
      · split
        · intro hc
          simp at hc
        · split
          · rename_i rs hrs
            intro hc
            simp only [List.mem_map] at hc
            obtain ⟨r, hr, rfl⟩ := hc
            exact hq80.1 rs hrs r hr
          · rename_i cs hcs
            intro hc
            exact hq80.2 cs hcs c hc

/-- C5 (witness): concrete requests with quality `"0"`, `"101"`, and
absent. -/
theorem c5_witness :
    (handler ⟨⟨none, none, some "0", none⟩, [⟨10, 10, "x.webp", false⟩]⟩).1 =
      ⟨400, .error "Invalid width, height, or quality"⟩ ∧
    (handler ⟨⟨none, none, some "101", none⟩, [⟨10, 10, "x.webp", false⟩]⟩).1 =
      ⟨400, .error "Invalid width, height, or quality"⟩ ∧
    ∀ c ∈ (handler ⟨⟨none, none, none, none⟩, [⟨10, 10, "x.webp", false⟩]⟩).2,
      c.quality = JVal.int 80 :=
  ⟨(c5_quality _).1 rfl, (c5_quality _).2.1 rfl, (c5_quality _).2.2 rfl⟩

/-- C6: when the parameters are valid, the batch is non-empty, at most 20
files long, and every file processes successfully, the response is 200 and
its `urls` array is exactly the input file list mapped to output urls —
`N` entries, the `i`-th being the public url of the output produced from
the `i`-th input file. -/
theorem c6_batch_success (req : Request)
    (hvalid : invalidParams (dimVal req.query.width) (dimVal req.query.height)
      (qualVal req.query.quality) = false)
    (hne : req.files ≠ []) (hlen : req.files.length ≤ 20)
    (hok : ∀ f ∈ req.files, f.fails = false) :
    (handler req).1 = ⟨200, .urls (req.files.map urlOf)⟩ := by
  have hpb := processBatch_ok (dimVal req.query.width) (dimVal req.query.height)
    (req.query.maintainAspectRatio = some "true") (qualVal req.query.quality)
    req.files hok
  have h20 : ¬(20 < req.files.length) := by omega
  simp [handler, handlerCore, hvalid, List.isEmpty_iff, hne, h20, hpb,
    List.map_map, Function.comp, convertFile]

/-- C6 (witness): a concrete 2-file batch returns the two urls in input
order. -/
theorem c6_witness :
    (handler ⟨⟨none, none, none, none⟩,
      [⟨10, 10, "a.webp", false⟩, ⟨20, 30, "b.webp", false⟩]⟩).1 =
    ⟨200, .urls
      [urlOf ⟨10, 10, "a.webp", false⟩, urlOf ⟨20, 30, "b.webp", false⟩]⟩ :=
  c6_batch_success _ (by decide) (by decide) (by decide) (by decide)

/-- C7: when the parameters are valid and the file-count checks pass, any
per-file exception (modelled by a file with `fails = true` anywhere in the
batch) makes the whole request answer 500 with body
`{"error": "Image conversion failed"}` — an error body, so the response
carries no urls for the files already converted. -/
theorem c7_abort_on_failure (req : Request)
    (hvalid : invalidParams (dimVal req.query.width) (dimVal req.query.height)
      (qualVal req.query.quality) = false)
    (hne : req.files ≠ []) (hlen : req.files.length ≤ 20)
    (hfail : ∃ f ∈ req.files, f.fails = true) :
    (handler req).1 = ⟨500, .error "Image conversion failed"⟩ := by
  obtain ⟨cs, hcs⟩ := processBatch_err (dimVal req.query.width) (dimVal req.query.height)
    (req.query.maintainAspectRatio = some "true") (qualVal req.query.quality)
    req.files hfail
  have h20 : ¬(20 < req.files.length) := by omega
  simp [handler, handlerCore, hvalid, List.isEmpty_iff, hne, h20, hcs]

/-- C7 (witness): a 3-file batch whose middle file throws yields the 500
conversion-failure response. -/
theorem c7_witness :
    (handler ⟨⟨none, none, none, none⟩,
      [⟨10, 10, "a.webp", false⟩, ⟨10, 10, "b.webp", true⟩,
       ⟨10, 10, "c.webp", false⟩]⟩).1 =
    ⟨500, .error "Image conversion failed"⟩ :=
  c7_abort_on_failure _ (by decide) (by decide) (by decide)
    ⟨⟨10, 10, "b.webp", true⟩, by decide, rfl⟩

/-- C8: with `maintainAspectRatio` false the plan is the parsed width and
height passed through unchanged (falsy values standing for "unset"), and
whenever both target dimensions are falsy no resize call is made, so for
any resize semantics of the external library the output keeps the source
dimensions. -/
theorem c8_passthrough_and_no_resize :
    (∀ (w h : JVal) (ow oh : ℤ), computePlan w h false ow oh = (w, h)) ∧
    (∀ (sem : Option ℤ × Option ℤ → ℤ × ℤ → ℤ × ℤ) (tW tH : JVal) (src : ℤ × ℤ),
      truthy tW = false → truthy tH = false → finalDims sem tW tH src = src) := by
  constructor
  · intro w h ow oh
    rfl
  · intro sem tW tH src h1 h2
    simp [finalDims, appliedResize, h1, h2]

/-- C8 (witness): a concrete pass-through plan and a concrete skipped
resize (both dimensions falsy) leaving a 7×9 source untouched even under a
degenerate resize semantics. -/
theorem c8_witness :
    computePlan (.int 3) .null false 4 5 = (.int 3, .null) ∧
    finalDims (fun _ _ => (0, 0)) .null .nan (7, 9) = (7, 9) :=
  ⟨c8_passthrough_and_no_resize.1 (.int 3) .null 4 5,
   c8_passthrough_and_no_resize.2 (fun _ _ => (0, 0)) .null .nan (7, 9) rfl rfl⟩

/-- C9: a width (or height) query parameter that parses to `NaN` or to `0`
is falsy everywhere the handler looks at it, so the request is processed
exactly as if the parameter were omitted: the full response and the full
trace of sharp calls coincide with those of the parameter-free request. -/
theorem c9_falsy_dim_ignored (req : Request) :
    (∀ s, req.query.width = some s →
      (parseIntJS s = .nan ∨ parseIntJS s = .int 0) →
      handler req = handler ⟨⟨none, req.query.height, req.query.quality,
        req.query.maintainAspectRatio⟩, req.files⟩) ∧
    (∀ s, req.query.height = some s →
      (parseIntJS s = .nan ∨ parseIntJS s = .int 0) →
      handler req = handler ⟨⟨req.query.width, none, req.query.quality,
        req.query.maintainAspectRatio⟩, req.files⟩) := by
  constructor
  · intro s hs hp
    have hfalsy : truthy (dimVal req.query.width) = false := by
      rw [hs]
      by_cases he : s = ""
      · simp [dimVal, he, truthy]
      · rcases hp with hp | hp <;> simp [dimVal, he, hp, truthy]
    simp only [handler]
    exact handlerCore_falsy_width hfalsy _ _ _ _
  · intro s hs hp
    have hfalsy : truthy (dimVal req.query.height) = false := by
      rw [hs]
      by_cases he : s = ""
      · simp [dimVal, he, truthy]
      · rcases hp with hp | hp <;> simp [dimVal, he, hp, truthy]
    simp only [handler]
    exact handlerCore_falsy_height _ hfalsy _ _ _

/-- C9 (witness): `width="abc"` and `height="0"` give responses and sharp
traces identical to the parameter-free request. -/
theorem c9_witness :
    handler ⟨⟨some "abc", none, none, none⟩, [⟨100, 50, "a.webp", false⟩]⟩ =
      handler ⟨⟨none, none, none, none⟩, [⟨100, 50, "a.webp", false⟩]⟩ ∧
    handler ⟨⟨none, some "0", none, none⟩, [⟨100, 50, "a.webp", false⟩]⟩ =
      handler ⟨⟨none, none, none, none⟩, [⟨100, 50, "a.webp", false⟩]⟩ :=
  ⟨(c9_falsy_dim_ignored _).1 "abc" rfl (Or.inl rfl),
   (c9_falsy_dim_ignored _).2 "0" rfl (Or.inr rfl)⟩

/-- `Math.round x ≤ z` whenever `x ≤ z` for an integer bound `z`. -/
theorem round_le_int {x : ℚ} {z : ℤ} (hx : x ≤ (z : ℚ)) : round x ≤ z := by
  rw [round_eq]
  have h1 : x + 1 / 2 < ((z + 1 : ℤ) : ℚ) := by push_cast; linarith
  have h2 := Int.floor_lt.mpr h1
  omega

/-- C3: with `maintainAspectRatio=true` and both box dimensions in
[1,5000], the plan computed on lines 100–106 never exceeds either bound
and matches the source aspect ratio up to the 1-pixel rounding of
`Math.round` (one target dimension is within 1 of the exact aspect-scaled
value of the other). -/
theorem c3_bounding_box (w h ow oh : ℤ) (hw1 : 1 ≤ w) (hw2 : w ≤ 5000)
    (hh1 : 1 ≤ h) (hh2 : h ≤ 5000) (how : 0 < ow) (hoh : 0 < oh) :
    ∃ a b : ℤ, computePlan (.int w) (.int h) true ow oh = (.int a, .int b) ∧
      a ≤ w ∧ b ≤ h ∧
      (|(a : ℚ) - (b : ℚ) * ((ow : ℚ) / (oh : ℚ))| ≤ 1 ∨
       |(b : ℚ) - (a : ℚ) * ((oh : ℚ) / (ow : ℚ))| ≤ 1) := by
  have hw0 : w ≠ 0 := by omega
  have hh0 : h ≠ 0 := by omega
  have howQ : (0 : ℚ) < (ow : ℚ) := by exact_mod_cast how
  have hohQ : (0 : ℚ) < (oh : ℚ) := by exact_mod_cast hoh
  have hhQ : (0 : ℚ) < (h : ℚ) := by exact_mod_cast hh1
  have har : (0 : ℚ) < (ow : ℚ) / (oh : ℚ) := div_pos howQ hohQ
  by_cases hc : (ow : ℚ) / (oh : ℚ) < (w : ℚ) / (h : ℚ)
  · refine ⟨round ((h : ℚ) * ((ow : ℚ) / (oh : ℚ))), h, ?_, ?_, le_refl h, ?_⟩
    · simp [computePlan, truthy, toQ, hw0, hh0, hc]
    · apply round_le_int
      have : (h : ℚ) * ((ow : ℚ) / (oh : ℚ)) < (w : ℚ) := by
        rw [lt_div_iff₀ hhQ] at hc
        linarith [hc]
      linarith
    · left
      have := abs_sub_round ((h : ℚ) * ((ow : ℚ) / (oh : ℚ)))
      rw [abs_sub_comm] at this
      linarith
  · refine ⟨w, round ((w : ℚ) / ((ow : ℚ) / (oh : ℚ))), ?_, le_refl w, ?_, ?_⟩
    · simp [computePlan, truthy, toQ, hw0, hh0, hc]
    · apply round_le_int
      rw [div_le_iff₀ har]
      rw [not_lt, div_le_div_iff₀ hhQ hohQ] at hc
      have h2 : (h : ℚ) * ((ow : ℚ) / (oh : ℚ)) = (h : ℚ) * (ow : ℚ) / (oh : ℚ) := by
        ring
      rw [h2, le_div_iff₀ hohQ]
      linarith
    · right
      have heq : (w : ℚ) / ((ow : ℚ) / (oh : ℚ)) = (w : ℚ) * ((oh : ℚ) / (ow : ℚ)) := by
        field_simp
      have h4 := abs_sub_round ((w : ℚ) / ((ow : ℚ) / (oh : ℚ)))
      rw [abs_sub_comm] at h4
      rw [← heq]
      linarith

/-- C3 (witness): a 100×50 box around a 4:3 source gives a plan (67, 50)
within both bounds and within a pixel of 4:3. -/
theorem c3_witness :
    ((1 : ℤ) ≤ 100 ∧ (100 : ℤ) ≤ 5000 ∧ (1 : ℤ) ≤ 50 ∧ (50 : ℤ) ≤ 5000 ∧
      (0 : ℤ) < 4 ∧ (0 : ℤ) < 3) ∧
    (∃ a b : ℤ, computePlan (.int 100) (.int 50) true 4 3 = (.int a, .int b) ∧
      a ≤ 100 ∧ b ≤ 50 ∧
      (|(a : ℚ) - (b : ℚ) * (((4 : ℤ) : ℚ) / ((3 : ℤ) : ℚ))| ≤ 1 ∨
       |(b : ℚ) - (a : ℚ) * (((3 : ℤ) : ℚ) / ((4 : ℤ) : ℚ))| ≤ 1)) :=
  ⟨by norm_num,
   c3_bounding_box 100 50 4 3 (by norm_num) (by norm_num) (by norm_num)
     (by norm_num) (by norm_num) (by norm_num)⟩

/-- C4: with `maintainAspectRatio=true` and only a (valid) width given,
the plan keeps the width and sets the height to
`Math.round(width / aspectRatio)` (line 108). -/
theorem c4_width_only (w ow oh : ℤ) (hw1 : 1 ≤ w) (_hw2 : w ≤ 5000)
    (_how : 0 < ow) (_hoh : 0 < oh) :
    computePlan (.int w) .null true ow oh =
      (.int w, .int (round ((w : ℚ) / ((ow : ℚ) / (oh : ℚ))))) := by
  have hw0 : w ≠ 0 := by omega
  simp [computePlan, truthy, toQ, hw0]

/-- C4 (witness): width 100 and a 4:3 source give the plan (100, 75). -/
theorem c4_witness :
    ((1 : ℤ) ≤ 100 ∧ (100 : ℤ) ≤ 5000 ∧ (0 : ℤ) < 4 ∧ (0 : ℤ) < 3) ∧
    computePlan (.int 100) .null true 4 3 =
      (.int 100, .int (round (((100 : ℤ) : ℚ) / (((4 : ℤ) : ℚ) / ((3 : ℤ) : ℚ))))) :=
  ⟨by norm_num,
   c4_width_only 100 4 3 (by norm_num) (by norm_num) (by norm_num) (by norm_num)⟩

/-- C10 (counterexample): when the bounding box has exactly the source
aspect ratio — here a 2×1 box on a 2×1 source — the else-branch keeps the
width AND the recomputed height equals the requested height, so BOTH
requested dimensions are unchanged and "exactly one requested dimension
unchanged" fails. -/
theorem c10_counterexample :
    computePlan (.int 2) (.int 1) true 2 1 = (.int 2, .int 1) ∧
    ¬(((computePlan (.int 2) (.int 1) true 2 1).1 = JVal.int 2 ∧
       (computePlan (.int 2) (.int 1) true 2 1).2 ≠ JVal.int 1) ∨
      ((computePlan (.int 2) (.int 1) true 2 1).1 ≠ JVal.int 2 ∧
       (computePlan (.int 2) (.int 1) true 2 1).2 = JVal.int 1)) := by
  have h : computePlan (.int 2) (.int 1) true 2 1 = (.int 2, .int 1) := by
    norm_num [computePlan, truthy, toQ, round_eq]
  refine ⟨h, ?_⟩
  rw [h]
  simp

/-- C10 (amended): with `maintainAspectRatio=true` and both dimensions
given and positive, the plan keeps AT LEAST one requested dimension:
either the height is kept and the width becomes
`Math.round(height × aspectRatio)`, or the width is kept and the height
becomes `Math.round(width / aspectRatio)` (both may coincide with the
request when the box already has the source ratio). -/
theorem c10_amended (w h ow oh : ℤ) (hw : 0 < w) (hh : 0 < h)
    (_how : 0 < ow) (_hoh : 0 < oh) :
    ((computePlan (.int w) (.int h) true ow oh).2 = .int h ∧
     (computePlan (.int w) (.int h) true ow oh).1 =
       .int (round ((h : ℚ) * ((ow : ℚ) / (oh : ℚ))))) ∨
    ((computePlan (.int w) (.int h) true ow oh).1 = .int w ∧
     (computePlan (.int w) (.int h) true ow oh).2 =
       .int (round ((w : ℚ) / ((ow : ℚ) / (oh : ℚ))))) := by
  have hw0 : w ≠ 0 := by omega
  have hh0 : h ≠ 0 := by omega
  by_cases hc : (ow : ℚ) / (oh : ℚ) < (w : ℚ) / (h : ℚ)
  · left
    constructor <;> simp [computePlan, truthy, toQ, hw0, hh0, hc]
  · right
    constructor <;> simp [computePlan, truthy, toQ, hw0, hh0, hc]

/-- C10 (witness for the amended claim): a 4×3 box on a 16:9 source keeps
the width and recomputes the height. -/
theorem c10_amended_witness :
    ((0 : ℤ) < 4 ∧ (0 : ℤ) < 3 ∧ (0 : ℤ) < 16 ∧ (0 : ℤ) < 9) ∧
    (((computePlan (.int 4) (.int 3) true 16 9).2 = JVal.int 3 ∧
      (computePlan (.int 4) (.int 3) true 16 9).1 =
        JVal.int (round (((3 : ℤ) : ℚ) * (((16 : ℤ) : ℚ) / ((9 : ℤ) : ℚ))))) ∨
     ((computePlan (.int 4) (.int 3) true 16 9).1 = JVal.int 4 ∧
      (computePlan (.int 4) (.int 3) true 16 9).2 =
        JVal.int (round (((4 : ℤ) : ℚ) / (((16 : ℤ) : ℚ) / ((9 : ℤ) : ℚ)))))) :=
  ⟨by norm_num,
   c10_amended 4 3 16 9 (by norm_num) (by norm_num) (by norm_num) (by norm_num)⟩

end WebpConv
